import Mathlib

/-!
Formal model of the `ectoenv` environment binder (`environment.go`).

The Go package walks a struct's fields via reflection, resolves each
annotated field's textual value from the process environment (falling back
to a declared default literal), converts the text to the field's type and
writes it in place.  We embed the reflected view of a record shallowly:

* `Env` models the process environment table as read by `os.Getenv`,
  which returns `""` for unset variables.
* `FieldMeta` models the per-field reflection data the binder consults:
  the struct field name (`rt.Field(i).Name`, recorded only so that
  specifications can talk about it; the binder itself never reads it),
  the field's type name (`field.Type().Name()`), settability
  (`field.CanSet()`) and the two struct tags.
* `Val` models the reflected field value together with its kind
  (`field.Kind()`); `vOther` stands for every kind outside the switch in
  `setFieldValue`, and `vStructSlice` for slices whose element kind is a
  struct.  A `float64` value is represented by the literal that
  `strconv.ParseFloat` accepted: no claim in scope depends on IEEE-754
  magnitudes, only on which strings parse, so we model `ParseFloat`'s
  accepted set — its grammar together with its `ErrRange` rejection —
  and keep the text.  `ParseFloat` reports `ErrRange` exactly when the
  correctly-rounded value overflows to ±Inf, i.e. when the literal's
  magnitude is at least 2^1024 − 2^970 (underflow rounds to zero or a
  denormal with a nil error, both in `floatBits` and in `atofHex`); the
  overflow decision is reproduced exactly with integer arithmetic,
  including strconv's saturation of the exponent digits at 10000.
* Errors are structured (`BindError`) carrying exactly the data the Go
  `fmt.Errorf` calls interpolate; the wrapped `strconv` cause is a
  function of the raw text and kind and is not modelled separately.
-/

namespace Ectoenv

/-- The process environment as seen through `os.Getenv`: total map from
variable names to strings, with `""` for unset variables. -/
abbrev Env := String → String

/-- Per-field reflection data consulted by the binder. `name` is
`rt.Field(i).Name` (recorded for specification purposes only; the Go code
never interpolates it), `typeName` is `field.Type().Name()` (empty for
unnamed types such as `[]int` or anonymous structs), `canSet` is
`field.CanSet()`, `envTag` and `defTag` are the `env` and `env-default`
tag values (`Tag.Get` yields `""` when a tag is absent). -/
structure FieldMeta where
  name : String
  typeName : String
  canSet : Bool
  envTag : String
  defTag : String
deriving DecidableEq, Repr

/-- Structured form of the errors `environment.go` builds with
`fmt.Errorf`. `convErr typeName raw kind` is
"unable to set value for field <typeName>. failed to parse <raw> as <kind>";
`nestedErr typeName e` is "unable to set value for field <typeName>: <e>";
`invalidTarget msg` is the `errors.New` message of `validateInput`. -/
inductive BindError where
  | invalidTarget (msg : String)
  | convErr (typeName : String) (raw : String) (kind : String)
  | nestedErr (typeName : String) (inner : BindError)
deriving DecidableEq, Repr

/-- Reflected field values, indexed by the reflect kind the binder
switches on. `vFloat`/`vFloatSlice` carry the accepted source literal
(see the module comment). `vStructSlice` is a slice with struct element
kind; `vOther` is every kind outside `setFieldValue`'s switch. -/
inductive Val where
  | vStr (s : String)
  | vInt (n : Int)
  | vBool (b : Bool)
  | vFloat (lit : String)
  | vStrSlice (l : List String)
  | vIntSlice (l : List Int)
  | vBoolSlice (l : List Bool)
  | vFloatSlice (l : List String)
  | vStructSlice (l : List (List (FieldMeta × Val)))
  | vStruct (fields : List (FieldMeta × Val))
  | vOther

/-- strconv.ParseBool: accepts exactly 1, t, T, TRUE, true, True,
0, f, F, FALSE, false, False. -/
def parseBool? (s : String) : Option Bool :=
  match s with
  | "1" | "t" | "T" | "TRUE" | "true" | "True" => some true
  | "0" | "f" | "F" | "FALSE" | "false" | "False" => some false
  | _ => none

/-- Value of a decimal digit character, if it is one. -/
def decDigit? (c : Char) : Option Nat :=
  if '0' ≤ c ∧ c ≤ '9' then some (c.toNat - 48) else none

/-- Reads a nonempty all-decimal-digit string as a natural number
(the digit loop of `strconv.ParseUint` at base 10; base 10 is given
explicitly by `Atoi`, so underscores are rejected). -/
def decNat? (cs : List Char) : Option Nat :=
  match cs with
  | [] => none
  | _ =>
    cs.foldl
      (fun acc c =>
        match acc, decDigit? c with
        | some a, some d => some (a * 10 + d)
        | _, _ => none)
      (some 0)

/-- strconv.Atoi = ParseInt(s, 10, 0): optional sign, one or more decimal
digits, result range-checked against a 64-bit `int` (the package targets
64-bit platforms); any violation yields an error (`none`). -/
def atoi? (s : String) : Option Int :=
  let (neg, digits) :=
    match s.toList with
    | '-' :: r => (true, r)
    | '+' :: r => (false, r)
    | r => (false, r)
  match decNat? digits with
  | none => none
  | some n =>
    let v : Int := if neg then -(n : Int) else (n : Int)
    if -(2 ^ 63) ≤ v ∧ v ≤ 2 ^ 63 - 1 then some v else none

/-- ASCII lower-casing as used by strconv's `lower` (`c | 0x20`) at the
positions where it is compared against a lowercase letter. -/
def lowerChar (c : Char) : Char :=
  if 'A' ≤ c ∧ c ≤ 'Z' then Char.ofNat (c.toNat + 32) else c

/-- Go hex-digit test used by `readFloat` and `underscoreOK`. -/
def isHexDigitGo (c : Char) : Bool :=
  ('0' ≤ c ∧ c ≤ '9') ∨ ('a' ≤ lowerChar c ∧ lowerChar c ≤ 'f')

/-- Case-insensitive comparison against an ASCII-lowercase pattern. -/
def eqCI : List Char → List Char → Bool
  | [], [] => true
  | c :: r, d :: t => lowerChar c = d && eqCI r t
  | _, _ => false

/-- strconv's `special`, restricted to full-string matches as required by
`ParseFloat`: an optional sign followed by inf/infinity (case-insensitive),
or unsigned nan (the sign cases fall through to the infinity check only). -/
def specialOk (s : List Char) : Bool :=
  match s with
  | [] => false
  | c :: r =>
    if c = '+' ∨ c = '-' then
      eqCI r "inf".toList || eqCI r "infinity".toList
    else
      eqCI s "inf".toList || eqCI s "infinity".toList || eqCI s "nan".toList

/-- The mantissa loop of strconv's `readFloat`: consumes digits (hex
digits in hex mode), underscores, and at most one dot; returns whether a
digit was seen and the unconsumed suffix. -/
def mantissaScan (hex : Bool) : List Char → Bool → Bool → Bool × List Char
  | [], _, sawdig => (sawdig, [])
  | c :: r, sawdot, sawdig =>
    if c = '_' then mantissaScan hex r sawdot sawdig
    else if c = '.' then
      if sawdot then (sawdig, c :: r) else mantissaScan hex r true sawdig
    else if (if hex then isHexDigitGo c else decide ('0' ≤ c ∧ c ≤ '9')) then
      mantissaScan hex r sawdot true
    else (sawdig, c :: r)

/-- The exponent part of `readFloat` after the `e`/`p` marker: optional
sign, then a mandatory leading decimal digit, then decimal digits or
underscores; returns the unconsumed suffix on success. -/
def expScan (cs : List Char) : Option (List Char) :=
  let body :=
    match cs with
    | c :: r => if c = '+' ∨ c = '-' then r else cs
    | [] => cs
  match body with
  | d :: r =>
    if '0' ≤ d ∧ d ≤ '9' then
      some (r.dropWhile (fun x => decide ('0' ≤ x ∧ x ≤ '9') || x = '_'))
    else none
  | [] => none

/-- Number-shape check of `readFloat` with `ParseFloat`'s requirement
that the whole string is consumed: optional sign, optional 0x prefix,
mantissa with at least one digit, then a mandatory `p` exponent in hex
mode or an optional `e` exponent in decimal mode. -/
def readFloatOk (s : List Char) : Bool :=
  let s1 :=
    match s with
    | c :: r => if c = '+' ∨ c = '-' then r else s
    | [] => s
  let hexSplit :=
    match s1 with
    | '0' :: x :: r => if lowerChar x = 'x' then (true, r) else (false, s1)
    | _ => (false, s1)
  let hex := hexSplit.1
  let scanned := mantissaScan hex hexSplit.2 false false
  if !scanned.1 then false
  else if hex then
    match scanned.2 with
    | p :: r =>
      lowerChar p = 'p' &&
        (match expScan r with
         | some [] => true
         | _ => false)
    | [] => false
  else
    match scanned.2 with
    | [] => true
    | e :: r =>
      lowerChar e = 'e' &&
        (match expScan r with
         | some [] => true
         | _ => false)

/-- strconv's `underscoreOK`: underscores may appear only between digits
or between a base prefix and a digit. The `saw` character tracks the
previous class exactly as in the Go source. -/
def underscoreRun (hex : Bool) : List Char → Char → Bool
  | [], saw => saw ≠ '_'
  | c :: r, saw =>
    if isHexDigitGo c ∧ (hex ∨ ('0' ≤ c ∧ c ≤ '9')) then underscoreRun hex r '0'
    else if c = '_' then
      if saw ≠ '0' then false else underscoreRun hex r '_'
    else if saw = '_' then false
    else underscoreRun hex r '!'

/-- Entry point of strconv's `underscoreOK`: skips a sign and a 0x base
prefix (which counts as a digit position), then runs the class automaton. -/
def underscoreOK (s : List Char) : Bool :=
  let s1 :=
    match s with
    | c :: r => if c = '-' ∨ c = '+' then r else s
    | [] => s
  match s1 with
  | '0' :: x :: r =>
    if lowerChar x = 'x' then underscoreRun true r '0'
    else underscoreRun false s1 '!'
  | _ => underscoreRun false s1 '!'

/-- The digit loop shared by strconv's `readFloat` and `decimal.set`,
collecting the significant digits and the decimal-point position `dp`
(the represented value is 0.digits × base^dp before the exponent is
added): underscores are passed over, leading zeros are skipped while
decrementing `dp`, and a dot records `dp` = digits-so-far.  Go caps the
stored digits (19/16 in `readFloat`'s uint64, 800 in `decimal.set`) and
keeps the excess in a sticky `trunc` flag consulted only at rounding
ties; comparing with the full digit list decides those ties
identically, so the model keeps every digit.  Returns
(sawdot, dp, digits, rest). -/
def floatDigitsLoop (hex : Bool) :
    List Char → Bool → Int → List Nat → Bool × Int × List Nat × List Char
  | [], sawdot, dp, digs => (sawdot, dp, digs, [])
  | c :: r, sawdot, dp, digs =>
    if c = '_' then floatDigitsLoop hex r sawdot dp digs
    else if c = '.' then
      if sawdot then (sawdot, dp, digs, c :: r)
      else floatDigitsLoop hex r true (digs.length : Int) digs
    else if '0' ≤ c ∧ c ≤ '9' then
      if c = '0' ∧ digs = [] then floatDigitsLoop hex r sawdot (dp - 1) digs
      else floatDigitsLoop hex r sawdot dp (digs ++ [c.toNat - 48])
    else if hex ∧ 'a' ≤ lowerChar c ∧ lowerChar c ≤ 'f' then
      floatDigitsLoop hex r sawdot dp (digs ++ [(lowerChar c).toNat - 87])
    else (sawdot, dp, digs, c :: r)

/-- Exponent accumulation of `readFloat`/`decimal.set`: decimal digits
are folded into e, saturating once e has reached 10000 (underscores are
skipped).  Go clamps deliberately, and the clamp is observable for
literals with both a huge exponent and a huge digit count, so it is
mirrored exactly. -/
def expLoop : List Char → Int → Int
  | [], e => e
  | c :: r, e =>
    if c = '_' then expLoop r e
    else if '0' ≤ c ∧ c ≤ '9' then
      expLoop r (if e < 10000 then e * 10 + ((c.toNat : Int) - 48) else e)
    else e

/-- Overflow decision for a decimal literal with significant digits
`digs` and final decimal-point position dp (value = 0.digs × 10^dp):
the correctly-rounded float64 is ±Inf — strconv's ErrRange — exactly
when the magnitude is at least 2^1024 − 2^970, the midpoint above the
largest finite float64 (the exact tie rounds up to the even candidate
2^1024).  With a nonzero leading digit, dp ≥ 310 lies above the bound
and dp ≤ 308 below it, so only dp = 309 needs the exact integer
comparison, scaled to clear the denominators. -/
def decOverflow (digs : List Nat) (dp : Int) : Bool :=
  if digs.isEmpty then false
  else if dp ≥ 310 then true
  else if dp ≤ 308 then false
  else
    decide (digs.foldl (fun a d => a * 10 + d) 0 * 10 ^ 309 ≥
      2 ^ 970 * (2 ^ 54 - 1) * 10 ^ digs.length)

/-- Overflow decision for a hex literal with significant hex digits
`digs` and final binary-point position dp (value = 0.digs₁₆ × 2^dp, dp
already scaled by 4 and shifted by the p exponent): magnitude at least
2^1024 − 2^970 holds always when dp ≥ 1028, never when dp ≤ 1023, and
is decided exactly in between. -/
def hexOverflow (digs : List Nat) (dp : Int) : Bool :=
  if digs.isEmpty then false
  else if dp ≥ 1028 then true
  else if dp ≤ 1023 then false
  else
    decide (digs.foldl (fun a d => a * 16 + d) 0 * 2 ^ dp.toNat ≥
      2 ^ 970 * (2 ^ 54 - 1) * 2 ^ (4 * digs.length))

/-- The range analysis of strconv.ParseFloat(s, 64) on a syntactically
valid non-special literal: extract sign-stripped digits and
decimal-point position as `readFloat`/`decimal.set` do (`dp = nd` when
no dot was seen, ×4 for hex before the exponent is added), then decide
overflow.  ParseFloat reports ErrRange only for overflow; underflow
rounds to zero or a denormal with a nil error in both the decimal path
(`floatBits`) and the hex path (`atofHex`). -/
def floatOverflows (s : String) : Bool :=
  let cs := s.toList
  let s1 :=
    match cs with
    | c :: r => if c = '+' ∨ c = '-' then r else cs
    | [] => cs
  let hexSplit :=
    match s1 with
    | '0' :: x :: r => if lowerChar x = 'x' then (true, r) else (false, s1)
    | _ => (false, s1)
  let hex := hexSplit.1
  let scan := floatDigitsLoop hex hexSplit.2 false 0 []
  let digs := scan.2.2.1
  let dp0 := if scan.1 then scan.2.1 else (digs.length : Int)
  let dp1 := if hex then dp0 * 4 else dp0
  let dp2 :=
    match scan.2.2.2 with
    | c :: r =>
      if (if hex then lowerChar c = 'p' else lowerChar c = 'e') then
        match r with
        | d :: r2 =>
          if d = '-' then dp1 - expLoop r2 0
          else if d = '+' then dp1 + expLoop r2 0
          else dp1 + expLoop r 0
        | [] => dp1
      else dp1
    | [] => dp1
  if hex then hexOverflow digs dp2 else decOverflow digs dp2

/-- strconv.ParseFloat(s, 64) as a recognizer: the special inf/nan
forms, or a well-shaped number whose underscores (if any) satisfy
`underscoreOK` and whose value does not overflow float64 (the ErrRange
case).  The accepted literal itself is kept as the value. -/
def parseFloat? (s : String) : Option String :=
  let cs := s.toList
  if specialOk cs then some s
  else if readFloatOk cs && (!cs.contains '_' || underscoreOK cs)
      && !floatOverflows s then
    some s
  else none

/-- strings.Split(s, ",") on the underlying character list: Go's Split
with a one-character separator; the empty input yields one empty field. -/
def splitOnComma : List Char → List (List Char)
  | [] => [[]]
  | c :: r =>
    let rest := splitOnComma r
    if c = ',' then [] :: rest
    else
      match rest with
      | h :: t => (c :: h) :: t
      | [] => [[c]]

/-- strings.Split(envValue, ",") as used by `setSliceField`. -/
def split (s : String) : List String :=
  (splitOnComma s.toList).map (fun l => String.mk l)

/-- The shared shape of `setBoolSlice`, `setFloat64Slice` and
`setIntSlice`'s conversion loops: convert each substring in order, failing
on the first element the scalar parser rejects and reporting that
substring. -/
def convertSlice {α : Type} (parse : String → Option α) :
    List String → Except String (List α)
  | [] => .ok []
  | s :: r =>
    match parse s with
    | none => .error s
    | some v =>
      match convertSlice parse r with
      | .error e => .error e
      | .ok l => .ok (v :: l)

/-- getEnvValue: reads the named environment variable; if the result is
empty, falls back to the `env-default` tag when that is nonempty. -/
def getEnvValue (env : Env) (meta : FieldMeta) : String :=
  let envValue := env meta.envTag
  if envValue = "" then
    if meta.defTag ≠ "" then meta.defTag else envValue
  else envValue

/-- setIntField: `strconv.Atoi` then `SetInt`; on parse failure the field
is left unchanged and the error interpolates `field.Type().Name()`, the
raw text and the kind. -/
def setIntField (meta : FieldMeta) (v : Val) (envValue : String) :
    Val × Option BindError :=
  match atoi? envValue with
  | none => (v, some (.convErr meta.typeName envValue "int"))
  | some n => (.vInt n, none)

/-- setBoolField: `strconv.ParseBool` then `SetBool`. -/
def setBoolField (meta : FieldMeta) (v : Val) (envValue : String) :
    Val × Option BindError :=
  match parseBool? envValue with
  | none => (v, some (.convErr meta.typeName envValue "bool"))
  | some b => (.vBool b, none)

/-- setFloat64Field: `strconv.ParseFloat(envValue, 64)` then `SetFloat`. -/
def setFloat64Field (meta : FieldMeta) (v : Val) (envValue : String) :
    Val × Option BindError :=
  match parseFloat? envValue with
  | none => (v, some (.convErr meta.typeName envValue "float64"))
  | some lit => (.vFloat lit, none)

/-- setIntSlice: convert every substring with `strconv.Atoi`, then `Set`
the collected slice; the first failing substring aborts with an error
naming it, leaving the field unchanged. -/
def setIntSlice (meta : FieldMeta) (v : Val) (parts : List String) :
    Val × Option BindError :=
  match convertSlice atoi? parts with
  | .error s => (v, some (.convErr meta.typeName s "int"))
  | .ok l => (.vIntSlice l, none)

/-- setBoolSlice: elementwise `strconv.ParseBool`, first failure aborts. -/
def setBoolSlice (meta : FieldMeta) (v : Val) (parts : List String) :
    Val × Option BindError :=
  match convertSlice parseBool? parts with
  | .error s => (v, some (.convErr meta.typeName s "bool"))
  | .ok l => (.vBoolSlice l, none)

/-- setFloat64Slice: elementwise `strconv.ParseFloat`, first failure
aborts. -/
def setFloat64Slice (meta : FieldMeta) (v : Val) (parts : List String) :
    Val × Option BindError :=
  match convertSlice parseFloat? parts with
  | .error s => (v, some (.convErr meta.typeName s "float64"))
  | .ok l => (.vFloatSlice l, none)

/-- setSliceField: split on the literal comma, then switch on the element
kind; element kinds outside {String, Bool, Float64, Int} (notably struct)
fall through the switch and leave the field unchanged with no error. -/
def setSliceField (meta : FieldMeta) (v : Val) (envValue : String) :
    Val × Option BindError :=
  let parts := split envValue
  match v with
  | .vStrSlice _ => (.vStrSlice parts, none)
  | .vBoolSlice _ => setBoolSlice meta v parts
  | .vFloatSlice _ => setFloat64Slice meta v parts
  | .vIntSlice _ => setIntSlice meta v parts
  | _ => (v, none)

/-- setFieldValue: the kind switch. String is copied verbatim; Int, Bool,
Float64 and Slice dispatch to their setters; every other kind (the
`default` of the Go switch) leaves the field unchanged and returns no
error. -/
def setFieldValue (meta : FieldMeta) (v : Val) (envValue : String) :
    Val × Option BindError :=
  match v with
  | .vStr _ => (.vStr envValue, none)
  | .vInt _ => setIntField meta v envValue
  | .vBool _ => setBoolField meta v envValue
  | .vFloat _ => setFloat64Field meta v envValue
  | .vStrSlice _ => setSliceField meta v envValue
  | .vIntSlice _ => setSliceField meta v envValue
  | .vBoolSlice _ => setSliceField meta v envValue
  | .vFloatSlice _ => setSliceField meta v envValue
  | .vStructSlice _ => setSliceField meta v envValue
  | _ => (v, none)

mutual

/-- One iteration of the loop body of `setFieldValues`: skip unsettable
fields; recurse into struct-kind fields through `BindEnv` on the field's
address (whose `validateInput` trivially succeeds), wrapping a failure
with `field.Type().Name()`; otherwise require a nonempty `env` tag and a
nonempty resolved value, then convert with `setFieldValue`.  The returned
field carries any partial mutation (relevant only for a failed nested
bind), exactly as the in-place Go mutation does. -/
def processField (env : Env) (f : FieldMeta × Val) :
    (FieldMeta × Val) × Option BindError :=
  if f.1.canSet = false then (f, none)
  else
    match f with
    | (meta, .vStruct gs) =>
      match setFieldValues env gs with
      | (gs', some err) =>
        ((meta, .vStruct gs'), some (.nestedErr meta.typeName err))
      | (gs', none) => ((meta, .vStruct gs'), none)
    | (meta, v) =>
      if meta.envTag = "" then ((meta, v), none)
      else
        let envValue := getEnvValue env meta
        if envValue = "" then ((meta, v), none)
        else
          match setFieldValue meta v envValue with
          | (v', e) => ((meta, v'), e)

/-- setFieldValues: process the fields in declaration order, returning on
the first error; fields after the failing one are untouched, fields before
it keep the values already written (no rollback). -/
def setFieldValues (env : Env) (fs : List (FieldMeta × Val)) :
    List (FieldMeta × Val) × Option BindError :=
  match fs with
  | [] => ([], none)
  | f :: rest =>
    match processField env f with
    | (f', some err) => (f' :: rest, some err)
    | (f', none) =>
      match setFieldValues env rest with
      | (rest', e) => (f' :: rest', e)

end

/-- The argument of `BindEnv` as seen through `reflect.ValueOf`: a typed
nil pointer or nil interface, a non-pointer value, a pointer to a
non-struct value, or a pointer to a struct with its field list. -/
inductive Target where
  | nilPtr
  | nonPtr (v : Val)
  | ptrToNonStruct (v : Val)
  | ptrToStruct (fields : List (FieldMeta × Val))

/-- validateInput: rejects non-pointers and nil pointers, then rejects
pointers whose element is not a struct; returns the error message. -/
def validateInput (t : Target) : Option String :=
  match t with
  | .nilPtr => some "provided value must be a non-nil pointer to a struct"
  | .nonPtr _ => some "provided value must be a non-nil pointer to a struct"
  | .ptrToNonStruct _ => some "provided value must be a pointer to a struct"
  | .ptrToStruct _ => none

/-- BindEnv: validate the target, then run `setFieldValues` over the
struct's fields; the pair returns the (possibly partially) mutated target
together with the error, modelling the in-place mutation through the
pointer. -/
def BindEnv (env : Env) (t : Target) : Target × Option BindError :=
  match t with
  | .ptrToStruct fs =>
    match setFieldValues env fs with
    | (fs', e) => (.ptrToStruct fs', e)
  | _ =>
    match validateInput t with
    | some msg => (t, some (.invalidTarget msg))
    | none => (t, none)

/-- Result of `BindEnvWithAutoRefresh`: the synchronous `BindEnv` outcome
plus whether the background refresh goroutine was launched.  The
goroutine's periodic re-binding is timer-driven and outside this model;
the claims in scope concern only the launch condition and the initial
bind. -/
structure RefreshStart where
  target : Target
  err : Option BindError
  refreshStarted : Bool

/-- BindEnvWithAutoRefresh: one synchronous `BindEnv`; on error return it
without calling `refresh`, otherwise call `refresh` (launching the
background loop) and return nil. -/
def BindEnvWithAutoRefresh (env : Env) (t : Target) : RefreshStart :=
  match BindEnv env t with
  | (t', some e) => ⟨t', some e, false⟩
  | (t', none) => ⟨t', none, true⟩

/-- Whether a reflected value has struct kind (the `field.Kind() ==
reflect.Struct` test of the loop). -/
def isStructVal : Val → Bool
  | .vStruct _ => true
  | _ => false

/-- Whether a reflected value has slice kind. -/
def isSliceVal : Val → Bool
  | .vStrSlice _ => true
  | .vIntSlice _ => true
  | .vBoolSlice _ => true
  | .vFloatSlice _ => true
  | .vStructSlice _ => true
  | _ => false

/-- Kinds outside the supported set {string, int, bool, float64, slices
of those, struct}: the kinds falling through `setFieldValue`'s switch
(`vOther`) and slices whose element kind falls through `setSliceField`'s
switch (`vStructSlice`). -/
def unsupportedKind : Val → Bool
  | .vOther => true
  | .vStructSlice _ => true
  | _ => false

/-- Whether a target is a non-nil pointer to a struct, i.e. passes
`validateInput`. -/
def isStructPtr : Target → Bool
  | .ptrToStruct _ => true
  | _ => false

/-- Whether converting the given text for a field holding the given value
fails, per the scalar parsers and the elementwise slice conversion. -/
def convFails : Val → String → Bool
  | .vInt _, s => (atoi? s).isNone
  | .vBool _, s => (parseBool? s).isNone
  | .vFloat _, s => (parseFloat? s).isNone
  | .vIntSlice _, s =>
    match convertSlice atoi? (split s) with
    | .error _ => true
    | .ok _ => false
  | .vBoolSlice _, s =>
    match convertSlice parseBool? (split s) with
    | .error _ => true
    | .ok _ => false
  | .vFloatSlice _, s =>
    match convertSlice parseFloat? (split s) with
    | .error _ => true
    | .ok _ => false
  | _, _ => false

/-- Whether an error is a conversion error. -/
def isConvErr : BindError → Bool
  | .convErr _ _ _ => true
  | _ => false

/-- An environment table with a single variable bound. -/
def envOf (k v : String) : Env := fun q => if q = k then v else ""

/-- The empty environment table: every variable unset. -/
def envEmpty : Env := fun _ => ""

/-- An environment table with two variables bound. -/
def envTwo (k1 v1 k2 v2 : String) : Env :=
  fun q => if q = k1 then v1 else if q = k2 then v2 else ""

/-! Branch lemmas characterizing `processField`, one per path of the Go
loop body. -/

theorem processField_canSet_false (env : Env) (meta : FieldMeta) (v : Val)
    (h : meta.canSet = false) : processField env (meta, v) = ((meta, v), none) := by
  cases v <;> simp [processField, h]

theorem processField_struct (env : Env) (meta : FieldMeta)
    (gs : List (FieldMeta × Val)) (hset : meta.canSet = true) :
    processField env (meta, .vStruct gs) =
      match setFieldValues env gs with
      | (gs', some err) =>
        ((meta, .vStruct gs'), some (.nestedErr meta.typeName err))
      | (gs', none) => ((meta, .vStruct gs'), none) := by
  simp [processField, hset]

theorem processField_no_tag (env : Env) (meta : FieldMeta) (v : Val)
    (hns : isStructVal v = false) (htag : meta.envTag = "") :
    processField env (meta, v) = ((meta, v), none) := by
  cases v <;> simp_all [isStructVal] <;>
    by_cases h : meta.canSet = false <;> simp [processField, h, htag]

theorem processField_empty_resolved (env : Env) (meta : FieldMeta) (v : Val)
    (hns : isStructVal v = false) (hres : getEnvValue env meta = "") :
    processField env (meta, v) = ((meta, v), none) := by
  cases v <;> simp_all [isStructVal] <;>
    by_cases h : meta.canSet = false <;> by_cases h2 : meta.envTag = "" <;>
    simp [processField, h, h2, hres]

theorem processField_nonstruct (env : Env) (meta : FieldMeta) (v : Val)
    (hns : isStructVal v = false) (hset : meta.canSet = true)
    (htag : meta.envTag ≠ "") (hres : getEnvValue env meta ≠ "") :
    processField env (meta, v) =
      ((meta, (setFieldValue meta v (getEnvValue env meta)).1),
        (setFieldValue meta v (getEnvValue env meta)).2) := by
  cases v <;> simp_all [isStructVal, processField]

/-! Step equations for `setFieldValues`, `processField` on struct fields,
and `BindEnv`, phrased so concrete runs can be assembled by rewriting. -/

theorem setFieldValues_nil (env : Env) : setFieldValues env [] = ([], none) := by
  rw [setFieldValues]

theorem setFieldValues_cons_err (env : Env) (f f' : FieldMeta × Val)
    (rest : List (FieldMeta × Val)) (err : BindError)
    (h : processField env f = (f', some err)) :
    setFieldValues env (f :: rest) = (f' :: rest, some err) := by
  rw [setFieldValues, h]

theorem setFieldValues_cons_ok (env : Env) (f f' : FieldMeta × Val)
    (rest rest' : List (FieldMeta × Val)) (e : Option BindError)
    (h : processField env f = (f', none))
    (h2 : setFieldValues env rest = (rest', e)) :
    setFieldValues env (f :: rest) = (f' :: rest', e) := by
  rw [setFieldValues, h, h2]

theorem processField_struct_err (env : Env) (meta : FieldMeta)
    (gs gs' : List (FieldMeta × Val)) (err : BindError)
    (hset : meta.canSet = true) (h : setFieldValues env gs = (gs', some err)) :
    processField env (meta, .vStruct gs) =
      ((meta, .vStruct gs'), some (.nestedErr meta.typeName err)) := by
  rw [processField_struct env meta gs hset, h]

theorem processField_struct_ok (env : Env) (meta : FieldMeta)
    (gs gs' : List (FieldMeta × Val)) (hset : meta.canSet = true)
    (h : setFieldValues env gs = (gs', none)) :
    processField env (meta, .vStruct gs) = ((meta, .vStruct gs'), none) := by
  rw [processField_struct env meta gs hset, h]

theorem BindEnv_ptrToStruct (env : Env) (fs fs' : List (FieldMeta × Val))
    (e : Option BindError) (h : setFieldValues env fs = (fs', e)) :
    BindEnv env (.ptrToStruct fs) = (.ptrToStruct fs', e) := by
  rw [BindEnv, h]

/-! Helper lemmas about the conversion layer. -/

theorem setFieldValue_err_unchanged (meta : FieldMeta) (v : Val) (t : String)
    (v' : Val) (e : BindError) (h : setFieldValue meta v t = (v', some e)) :
    v' = v := by
  cases v <;>
    simp only [setFieldValue, setIntField, setBoolField, setFloat64Field,
      setSliceField, setIntSlice, setBoolSlice, setFloat64Slice] at h <;>
    first
    | (split at h <;> simp_all)
    | simp_all

theorem setFieldValue_fst_nonstruct (meta : FieldMeta) (v : Val) (t : String)
    (hns : isStructVal v = false) :
    isStructVal (setFieldValue meta v t).1 = false := by
  cases v <;>
    simp only [setFieldValue, setIntField, setBoolField, setFloat64Field,
      setSliceField, setIntSlice, setBoolSlice, setFloat64Slice] <;>
    first
    | (split <;> simp_all [isStructVal])
    | simp_all [isStructVal]

theorem setFieldValue_idem (meta : FieldMeta) (v : Val) (t : String)
    (h : (setFieldValue meta v t).2 = none) :
    setFieldValue meta (setFieldValue meta v t).1 t =
      ((setFieldValue meta v t).1, none) := by
  cases v with
  | vStr s => simp [setFieldValue]
  | vInt n =>
    rcases hp : atoi? t with - | m
    · simp [setFieldValue, setIntField, hp] at h
    · simp [setFieldValue, setIntField, hp]
  | vBool b =>
    rcases hp : parseBool? t with - | m
    · simp [setFieldValue, setBoolField, hp] at h
    · simp [setFieldValue, setBoolField, hp]
  | vFloat lit =>
    rcases hp : parseFloat? t with - | m
    · simp [setFieldValue, setFloat64Field, hp] at h
    · simp [setFieldValue, setFloat64Field, hp]
  | vStrSlice l => simp [setFieldValue, setSliceField]
  | vIntSlice l =>
    rcases hp : convertSlice atoi? (split t) with e | l2
    · simp [setFieldValue, setSliceField, setIntSlice, hp] at h
    · simp [setFieldValue, setSliceField, setIntSlice, hp]
  | vBoolSlice l =>
    rcases hp : convertSlice parseBool? (split t) with e | l2
    · simp [setFieldValue, setSliceField, setBoolSlice, hp] at h
    · simp [setFieldValue, setSliceField, setBoolSlice, hp]
  | vFloatSlice l =>
    rcases hp : convertSlice parseFloat? (split t) with e | l2
    · simp [setFieldValue, setSliceField, setFloat64Slice, hp] at h
    · simp [setFieldValue, setSliceField, setFloat64Slice, hp]
  | vStructSlice l => simp [setFieldValue, setSliceField]
  | vStruct gs => simp [setFieldValue]
  | vOther => simp [setFieldValue]

theorem processField_err_unchanged (env : Env) (meta : FieldMeta) (v : Val)
    (f' : FieldMeta × Val) (e : BindError) (hns : isStructVal v = false)
    (h : processField env (meta, v) = (f', some e)) : f' = (meta, v) := by
  by_cases hcs : meta.canSet = false
  · rw [processField_canSet_false env meta v hcs] at h
    simp at h
  · by_cases htag : meta.envTag = ""
    · rw [processField_no_tag env meta v hns htag] at h
      simp at h
    · by_cases hres : getEnvValue env meta = ""
      · rw [processField_empty_resolved env meta v hns hres] at h
        simp at h
      · rw [processField_nonstruct env meta v hns
          (by simpa using hcs) htag hres] at h
        obtain ⟨h1, h2⟩ := Prod.mk.injEq .. ▸ h
        rcases hsv : setFieldValue meta v (getEnvValue env meta) with ⟨v'', e''⟩
        rw [hsv] at h1 h2
        simp only at h1 h2
        subst h1
        have := setFieldValue_err_unchanged meta v (getEnvValue env meta) v'' e
          (by rw [hsv, h2])
        simp [this]

theorem processField_unsupported (env : Env) (meta : FieldMeta) (v : Val)
    (h : unsupportedKind v = true) :
    processField env (meta, v) = ((meta, v), none) := by
  have hns : isStructVal v = false := by
    cases v <;> simp_all [unsupportedKind, isStructVal]
  by_cases hcs : meta.canSet = false
  · exact processField_canSet_false env meta v hcs
  · by_cases htag : meta.envTag = ""
    · exact processField_no_tag env meta v hns htag
    · by_cases hres : getEnvValue env meta = ""
      · exact processField_empty_resolved env meta v hns hres
      · rw [processField_nonstruct env meta v hns (by simpa using hcs) htag hres]
        cases v <;> simp_all [unsupportedKind, setFieldValue, setSliceField]

theorem setFieldValues_length (env : Env) (fs : List (FieldMeta × Val)) :
    (setFieldValues env fs).1.length = fs.length := by
  induction fs with
  | nil => simp [setFieldValues]
  | cons f rest ih =>
    rw [setFieldValues]
    rcases hf : processField env f with ⟨f', e⟩
    cases e <;> simp only
    · rcases hr : setFieldValues env rest with ⟨rest', e2⟩
      simp only [List.length_cons]
      rw [hr] at ih
      simp at ih
      simp [ih]
    · simp

theorem splitOnComma_ne_nil (cs : List Char) : splitOnComma cs ≠ [] := by
  induction cs with
  | nil => simp [splitOnComma]
  | cons c r ih =>
    rw [splitOnComma]
    rcases h : splitOnComma r with - | ⟨h0, t⟩
    · exact absurd h ih
    · by_cases hc : c = ',' <;> simp [hc, h]

theorem splitOnComma_append_comma (cs : List Char) :
    splitOnComma (cs ++ [',']) = splitOnComma cs ++ [[]] := by
  induction cs with
  | nil => simp [splitOnComma]
  | cons c r ih =>
    rcases h : splitOnComma r with - | ⟨h0, t⟩
    · exact absurd h (splitOnComma_ne_nil r)
    · by_cases hc : c = ',' <;>
        simp [splitOnComma, hc, ih, h]

theorem split_append_comma (s : String) :
    split (s ++ ",") = split s ++ [""] := by
  have hdata : (s ++ ",").toList = s.toList ++ [','] := by
    simp [String.toList, String.data_append]
  simp [split, hdata, splitOnComma_append_comma]

theorem convertSlice_ok_iff {α : Type} (p : String → Option α)
    (ss : List String) (l : List α) :
    convertSlice p ss = .ok l ↔ ss.map p = l.map some := by
  induction ss generalizing l with
  | nil => cases l <;> simp [convertSlice]
  | cons s r ih =>
    rw [convertSlice]
    rcases hp : p s with - | v
    · cases l <;> simp [hp]
    · rcases hc : convertSlice p r with e | l2
      · cases l with
        | nil => simp [hp]
        | cons x xs =>
          simp only [List.map_cons, hp]
          constructor
          · intro h
            simp at h
          · rintro h
            simp only [List.cons.injEq, Option.some.injEq] at h
            rw [← ih xs] at h
            rw [h.2] at hc
            simp at hc
      · have hm := (ih l2).mp hc
        cases l with
        | nil => simp [hp]
        | cons x xs =>
          simp only [List.map_cons, hp, hm, List.cons.injEq,
            Option.some.injEq, Except.ok.injEq]
          constructor
          · rintro h
            simp [← h]
          · rintro ⟨h1, h2⟩
            have : l2 = xs := by
              have := (ih xs).mpr (by rw [← h2]; exact hm)
              simp [hc] at this
              exact this
            simp [h1, this]

theorem convertSlice_error {α : Type} (p : String → Option α)
    (ss : List String) (s : String) (h : convertSlice p ss = .error s) :
    ∃ pre post, ss = pre ++ s :: post ∧ (∀ x ∈ pre, (p x).isSome) ∧
      p s = none := by
  induction ss generalizing s with
  | nil => simp [convertSlice] at h
  | cons a r ih =>
    rw [convertSlice] at h
    rcases hp : p a with - | v
    · rw [hp] at h
      simp at h
      exact ⟨[], r, by simp [← h], by simp, by rw [← h]; exact hp⟩
    · rw [hp] at h
      rcases hc : convertSlice p r with e | l2
      · rw [hc] at h
        simp at h
        obtain ⟨pre, post, h1, h2, h3⟩ := ih (s := s) (by rw [hc, h])
        exact ⟨a :: pre, post, by simp [h1], by simpa [hp] using h2, h3⟩
      · rw [hc] at h
        simp at h

theorem map_eq_map_some_isSome {α : Type} (p : String → Option α)
    (ss : List String) (l : List α) (h : ss.map p = l.map some) :
    ∀ x ∈ ss, (p x).isSome := by
  induction ss generalizing l with
  | nil => simp
  | cons s r ih =>
    cases l with
    | nil => simp at h
    | cons y ys =>
      simp only [List.map_cons, List.cons.injEq] at h
      intro x hx
      rcases List.mem_cons.mp hx with rfl | hx2
      · simp [h.1]
      · exact ih ys h.2 x hx2

theorem convertSlice_error_of_failure {α : Type} (p : String → Option α)
    (ss : List String) (x : String) (hx : x ∈ ss) (hpx : p x = none) :
    ∃ bad, convertSlice p ss = .error bad := by
  rcases hc : convertSlice p ss with bad | l2
  · exact ⟨bad, rfl⟩
  · have hall := map_eq_map_some_isSome p ss l2
      ((convertSlice_ok_iff p ss l2).mp hc)
    have := hall x hx
    rw [hpx] at this
    simp at this

/-! Idempotence of the per-field pass, unconditional: re-processing the
(possibly partially mutated) output of a pass reproduces the same output
and the same error.  Proved by mutual induction on the nested field
structure. -/

theorem processField_idem_nonstruct (env : Env) (meta : FieldMeta) (v : Val)
    (hns : isStructVal v = false) :
    processField env (processField env (meta, v)).1 =
      processField env (meta, v) := by
  by_cases hcs : meta.canSet = false
  · rw [processField_canSet_false env meta v hcs]
    exact processField_canSet_false env meta v hcs
  · have hset : meta.canSet = true := by simpa using hcs
    by_cases htag : meta.envTag = ""
    · rw [processField_no_tag env meta v hns htag]
      exact processField_no_tag env meta v hns htag
    · by_cases hres : getEnvValue env meta = ""
      · rw [processField_empty_resolved env meta v hns hres]
        exact processField_empty_resolved env meta v hns hres
      · rw [processField_nonstruct env meta v hns hset htag hres]
        rcases hsv : setFieldValue meta v (getEnvValue env meta) with ⟨v1, e1⟩
        simp only
        cases e1 with
        | none =>
          have hvi : setFieldValue meta v1 (getEnvValue env meta) =
              (v1, none) := by
            have h2 := setFieldValue_idem meta v (getEnvValue env meta)
              (by rw [hsv])
            rw [hsv] at h2
            exact h2
          have hns1 : isStructVal v1 = false := by
            have h3 := setFieldValue_fst_nonstruct meta v
              (getEnvValue env meta) hns
            rw [hsv] at h3
            exact h3
          rw [processField_nonstruct env meta v1 hns1 hset htag hres, hvi]
        | some e =>
          have hv1 : v1 = v :=
            setFieldValue_err_unchanged meta v (getEnvValue env meta) v1 e hsv
          subst hv1
          rw [processField_nonstruct env meta v1 hns hset htag hres, hsv]

mutual

theorem processField_idem (env : Env) (f : FieldMeta × Val) :
    processField env (processField env f).1 = processField env f := by
  obtain ⟨meta, v⟩ := f
  cases hv : isStructVal v with
  | false => exact processField_idem_nonstruct env meta v hv
  | true =>
    obtain ⟨gs, rfl⟩ : ∃ gs, v = Val.vStruct gs := by
      cases v <;> first | exact ⟨_, rfl⟩ | simp [isStructVal] at hv
    by_cases hcs : meta.canSet = false
    · rw [processField_canSet_false env meta _ hcs]
      exact processField_canSet_false env meta _ hcs
    · have hset : meta.canSet = true := by simpa using hcs
      rw [processField_struct env meta gs hset]
      rcases hsf : setFieldValues env gs with ⟨gs', e⟩
      have hsi : setFieldValues env gs' = (gs', e) := by
        have h2 := setFieldValues_idem env gs
        rw [hsf] at h2
        exact h2
      cases e with
      | none =>
        simp only
        rw [processField_struct env meta gs' hset, hsi]
      | some err =>
        simp only
        rw [processField_struct env meta gs' hset, hsi]

theorem setFieldValues_idem (env : Env) (fs : List (FieldMeta × Val)) :
    setFieldValues env (setFieldValues env fs).1 = setFieldValues env fs := by
  cases fs with
  | nil => simp only [setFieldValues_nil]
  | cons f rest =>
    rcases hf : processField env f with ⟨f', e⟩
    have hfi : processField env f' = (f', e) := by
      have h2 := processField_idem env f
      rw [hf] at h2
      exact h2
    cases e with
    | some err =>
      rw [setFieldValues_cons_err env f f' rest err hf]
      exact setFieldValues_cons_err env f' f' rest err hfi
    | none =>
      rcases hr : setFieldValues env rest with ⟨rest', e2⟩
      have hri : setFieldValues env rest' = (rest', e2) := by
        have h3 := setFieldValues_idem env rest
        rw [hr] at h3
        exact h3
      rw [setFieldValues_cons_ok env f f' rest rest' e2 hf hr]
      exact setFieldValues_cons_ok env f' f' rest' rest' e2 hfi hri

end

/-! The claims. -/

/-- C1: for every writable non-struct field carrying an `env` annotation,
the textual value resolves to the environment value when that is nonempty;
when it is absent or empty the declared default literal is used if
present; the resolved nonempty value is handed to the conversion; and when
neither a nonempty environment value nor a default exists the field is
left at its current value, no error is raised, and processing moves on to
the next field. -/
theorem c1_value_resolution (env : Env) (meta : FieldMeta) (v : Val)
    (rest : List (FieldMeta × Val)) (hset : meta.canSet = true)
    (hns : isStructVal v = false) (htag : meta.envTag ≠ "") :
    (env meta.envTag ≠ "" → getEnvValue env meta = env meta.envTag)
    ∧ (env meta.envTag = "" → meta.defTag ≠ "" →
        getEnvValue env meta = meta.defTag)
    ∧ (getEnvValue env meta ≠ "" →
        processField env (meta, v) =
          ((meta, (setFieldValue meta v (getEnvValue env meta)).1),
            (setFieldValue meta v (getEnvValue env meta)).2))
    ∧ (env meta.envTag = "" → meta.defTag = "" →
        setFieldValues env ((meta, v) :: rest) =
          ((meta, v) :: (setFieldValues env rest).1,
            (setFieldValues env rest).2)) := by
  refine ⟨?_, ?_, ?_, ?_⟩
  · intro h
    simp [getEnvValue, h]
  · intro h1 h2
    simp [getEnvValue, h1, h2]
  · intro h
    exact processField_nonstruct env meta v hns hset htag h
  · intro h1 h2
    have hres : getEnvValue env meta = "" := by simp [getEnvValue, h1, h2]
    rw [setFieldValues, processField_empty_resolved env meta v hns hres]

/-- Witness for C1 at a concrete field: `Host string env:"HOST"
env-default:"dflt"` with `HOST=h` resolves to "h" and writes it. -/
theorem c1_value_resolution_witness :
    (FieldMeta.mk "Host" "string" true "HOST" "dflt").canSet = true
    ∧ isStructVal (Val.vStr "") = false
    ∧ (FieldMeta.mk "Host" "string" true "HOST" "dflt").envTag ≠ ""
    ∧ getEnvValue (envOf "HOST" "h")
        (FieldMeta.mk "Host" "string" true "HOST" "dflt") = "h"
    ∧ processField (envOf "HOST" "h")
        (FieldMeta.mk "Host" "string" true "HOST" "dflt", Val.vStr "") =
        ((FieldMeta.mk "Host" "string" true "HOST" "dflt", Val.vStr "h"),
          none) := by
  refine ⟨rfl, rfl, by decide, by decide, ?_⟩
  have h := (c1_value_resolution (envOf "HOST" "h")
    (FieldMeta.mk "Host" "string" true "HOST" "dflt") (Val.vStr "") []
    rfl rfl (by decide)).2.2.1 (by decide)
  rw [h]
  rfl

/-- C3: for every argument that is a nil pointer, a non-pointer value, or
a pointer to a non-struct, BindEnv returns an invalid-target error and
mutates nothing. -/
theorem c3_invalid_target (env : Env) (t : Target)
    (h : isStructPtr t = false) :
    (BindEnv env t).1 = t
    ∧ ∃ msg, (BindEnv env t).2 = some (.invalidTarget msg) := by
  cases t <;> simp_all [isStructPtr, BindEnv, validateInput]

/-- Witness for C3 at the nil-pointer target. -/
theorem c3_invalid_target_witness :
    isStructPtr Target.nilPtr = false
    ∧ (BindEnv envEmpty Target.nilPtr).1 = Target.nilPtr
    ∧ ∃ msg, (BindEnv envEmpty Target.nilPtr).2 =
        some (.invalidTarget msg) :=
  ⟨rfl, (c3_invalid_target envEmpty Target.nilPtr rfl).1,
    (c3_invalid_target envEmpty Target.nilPtr rfl).2⟩

/-- C7: a field whose kind is outside the supported set (a kind falling
through the value switch, or a slice of structs) is left unchanged with no
error, both per field and across a whole `setFieldValues` pass, so every
field the binder writes has a supported kind. -/
theorem c7_unsupported_kinds_skipped (env : Env) (meta : FieldMeta)
    (v : Val) (h : unsupportedKind v = true) :
    processField env (meta, v) = ((meta, v), none)
    ∧ ∀ (fs : List (FieldMeta × Val)) (i : Nat) (f : FieldMeta × Val),
        fs[i]? = some f → unsupportedKind f.2 = true →
        (setFieldValues env fs).1[i]? = some f := by
  refine ⟨processField_unsupported env meta v h, ?_⟩
  intro fs
  induction fs with
  | nil =>
    intro i f hf
    simp at hf
  | cons g rest ih =>
    intro i f hf hu
    rw [setFieldValues]
    rcases hg : processField env g with ⟨g', e⟩
    cases e with
    | some err =>
      cases i with
      | zero =>
        simp only [List.getElem?_cons_zero, Option.some.injEq] at hf
        obtain ⟨m0, v0⟩ := g
        rw [← hf] at hu
        rw [processField_unsupported env m0 v0 hu] at hg
        simp at hg
      | succ j =>
        simp only [List.getElem?_cons_succ] at hf
        simpa using hf
    | none =>
      rcases hr : setFieldValues env rest with ⟨rest1, e2⟩
      cases i with
      | zero =>
        simp only [List.getElem?_cons_zero, Option.some.injEq] at hf
        obtain ⟨m0, v0⟩ := g
        rw [← hf] at hu
        rw [processField_unsupported env m0 v0 hu] at hg
        simp only [Prod.mk.injEq] at hg
        simp [← hg.1, hf]
      | succ j =>
        simp only [List.getElem?_cons_succ] at hf
        have := ih j f hf hu
        rw [hr] at this
        simpa using this

/-- Witness for C7: an unsupported-kind field with a bound environment
variable is left untouched. -/
theorem c7_unsupported_kinds_skipped_witness :
    unsupportedKind Val.vOther = true
    ∧ processField (envOf "CH" "x")
        (FieldMeta.mk "Ch" "" true "CH" "", Val.vOther) =
        ((FieldMeta.mk "Ch" "" true "CH" "", Val.vOther), none) :=
  ⟨rfl, (c7_unsupported_kinds_skipped (envOf "CH" "x")
    (FieldMeta.mk "Ch" "" true "CH" "") Val.vOther rfl).1⟩

/-- C9: BindEnvWithAutoRefresh performs one synchronous bind with exactly
the result of BindEnv (same mutation, same error) and launches the
background refresh task precisely when that initial bind succeeds. -/
theorem c9_auto_refresh_initial_bind (env : Env) (t : Target) :
    (BindEnvWithAutoRefresh env t).target = (BindEnv env t).1
    ∧ (BindEnvWithAutoRefresh env t).err = (BindEnv env t).2
    ∧ ((BindEnvWithAutoRefresh env t).refreshStarted = true ↔
        (BindEnv env t).2 = none) := by
  rcases h : BindEnv env t with ⟨t', e⟩
  cases e <;> simp [BindEnvWithAutoRefresh, h]

/-- C8: Bind is idempotent: for every record and fixed environment state
a second call re-derives exactly the same field values as the first and
changes nothing further — re-binding the record a call produced (whether
that call succeeded or failed) returns that record unchanged with the
same outcome. -/
theorem c8_bind_idempotent (env : Env) (t : Target) :
    BindEnv env (BindEnv env t).1 = BindEnv env t := by
  cases t with
  | ptrToStruct fs =>
    rcases hs : setFieldValues env fs with ⟨fs', e⟩
    have hsi : setFieldValues env fs' = (fs', e) := by
      have h2 := setFieldValues_idem env fs
      rw [hs] at h2
      exact h2
    rw [BindEnv_ptrToStruct env fs fs' e hs]
    exact BindEnv_ptrToStruct env fs' fs' e hsi
  | nilPtr => rfl
  | nonPtr v => rfl
  | ptrToNonStruct v => rfl

/-- C2: when converting some field's resolved text fails, the bind aborts
at that field and returns the error; fields processed earlier stay
written, and the failing non-struct field and every later field keep
their prior values. -/
theorem c2_abort_on_first_error (env : Env) (fs fs' : List (FieldMeta × Val))
    (err : BindError) (h : setFieldValues env fs = (fs', some err)) :
    ∃ pre f post,
      fs = pre ++ f :: post
      ∧ (∀ g ∈ pre, (processField env g).2 = none)
      ∧ (processField env f).2 = some err
      ∧ fs' = pre.map (fun g => (processField env g).1)
          ++ (processField env f).1 :: post
      ∧ (isStructVal f.2 = false → (processField env f).1 = f) := by
  induction fs generalizing fs' with
  | nil =>
    rw [setFieldValues] at h
    simp at h
  | cons g rest ih =>
    rw [setFieldValues] at h
    rcases hg : processField env g with ⟨g', e⟩
    rw [hg] at h
    cases e with
    | some e0 =>
      simp only [Prod.mk.injEq, Option.some.injEq] at h
      obtain ⟨h1, h2⟩ := h
      refine ⟨[], g, rest, by simp, by simp, ?_, ?_, ?_⟩
      · rw [hg, h2]
      · rw [← h1]
        simp [hg]
      · intro hns
        obtain ⟨mg, vg⟩ := g
        have hu := processField_err_unchanged env mg vg g' e0 hns (by rw [hg])
        rw [hg, hu]
    | none =>
      rcases hr : setFieldValues env rest with ⟨rest1, e2⟩
      rw [hr] at h
      simp only [Prod.mk.injEq] at h
      obtain ⟨h1, h2⟩ := h
      obtain ⟨pre, f, post, k1, k2, k3, k4, k5⟩ :=
        ih rest1 (by rw [hr, h2])
      refine ⟨g :: pre, f, post, by simp [k1], ?_, k3, ?_, k5⟩
      · intro x hx
        rcases List.mem_cons.mp hx with rfl | hx2
        · rw [hg]
        · exact k2 x hx2
      · rw [← h1, k4]
        simp [hg]

/-- Witness for C2: with `NAME=n` and `COUNT=x`, the record
{Name string env:"NAME"; Count int env:"COUNT"; Port int env:"PORT"
env-default:"8080"} aborts at Count: Name is written, Count and Port keep
their zero values. -/
theorem c2_abort_on_first_error_witness :
    setFieldValues (envTwo "NAME" "n" "COUNT" "x")
        [(FieldMeta.mk "Name" "string" true "NAME" "", Val.vStr ""),
          (FieldMeta.mk "Count" "int" true "COUNT" "", Val.vInt 0),
          (FieldMeta.mk "Port" "int" true "PORT" "8080", Val.vInt 0)] =
      ([(FieldMeta.mk "Name" "string" true "NAME" "", Val.vStr "n"),
          (FieldMeta.mk "Count" "int" true "COUNT" "", Val.vInt 0),
          (FieldMeta.mk "Port" "int" true "PORT" "8080", Val.vInt 0)],
        some (.convErr "int" "x" "int"))
    ∧ ∃ pre f post,
        [(FieldMeta.mk "Name" "string" true "NAME" "", Val.vStr ""),
          (FieldMeta.mk "Count" "int" true "COUNT" "", Val.vInt 0),
          (FieldMeta.mk "Port" "int" true "PORT" "8080", Val.vInt 0)] =
          pre ++ f :: post
        ∧ (∀ g ∈ pre,
            (processField (envTwo "NAME" "n" "COUNT" "x") g).2 = none)
        ∧ (processField (envTwo "NAME" "n" "COUNT" "x") f).2 =
            some (.convErr "int" "x" "int")
        ∧ [(FieldMeta.mk "Name" "string" true "NAME" "", Val.vStr "n"),
            (FieldMeta.mk "Count" "int" true "COUNT" "", Val.vInt 0),
            (FieldMeta.mk "Port" "int" true "PORT" "8080", Val.vInt 0)] =
            pre.map
              (fun g => (processField (envTwo "NAME" "n" "COUNT" "x") g).1)
              ++ (processField (envTwo "NAME" "n" "COUNT" "x") f).1 :: post
        ∧ (isStructVal f.2 = false →
            (processField (envTwo "NAME" "n" "COUNT" "x") f).1 = f) := by
  have hb : setFieldValues (envTwo "NAME" "n" "COUNT" "x")
      [(FieldMeta.mk "Name" "string" true "NAME" "", Val.vStr ""),
        (FieldMeta.mk "Count" "int" true "COUNT" "", Val.vInt 0),
        (FieldMeta.mk "Port" "int" true "PORT" "8080", Val.vInt 0)] =
      ([(FieldMeta.mk "Name" "string" true "NAME" "", Val.vStr "n"),
          (FieldMeta.mk "Count" "int" true "COUNT" "", Val.vInt 0),
          (FieldMeta.mk "Port" "int" true "PORT" "8080", Val.vInt 0)],
        some (.convErr "int" "x" "int")) := by
    have p1 : processField (envTwo "NAME" "n" "COUNT" "x")
        (FieldMeta.mk "Name" "string" true "NAME" "", Val.vStr "") =
        ((FieldMeta.mk "Name" "string" true "NAME" "", Val.vStr "n"),
          none) := by
      rw [processField_nonstruct (envTwo "NAME" "n" "COUNT" "x")
        (FieldMeta.mk "Name" "string" true "NAME" "") (Val.vStr "") rfl rfl
        (by decide) (by decide)]
      rfl
    have p2 : processField (envTwo "NAME" "n" "COUNT" "x")
        (FieldMeta.mk "Count" "int" true "COUNT" "", Val.vInt 0) =
        ((FieldMeta.mk "Count" "int" true "COUNT" "", Val.vInt 0),
          some (.convErr "int" "x" "int")) := by
      rw [processField_nonstruct (envTwo "NAME" "n" "COUNT" "x")
        (FieldMeta.mk "Count" "int" true "COUNT" "") (Val.vInt 0) rfl rfl
        (by decide) (by decide)]
      rfl
    exact setFieldValues_cons_ok _ _ _ _ _ _ p1
      (setFieldValues_cons_err _ _ _ _ _ p2)
  exact ⟨hb, c2_abort_on_first_error (envTwo "NAME" "n" "COUNT" "x") _ _ _ hb⟩

/-- C4 counterexample: an empty resolved text does not produce a
zero-length sequence; the slice field keeps its prior value. With
`ITEMS` unset, a field already holding `[5]` still holds `[5]` after a
successful bind, and `[5]` is not the zero-length sequence. -/
theorem c4_empty_source_counterexample :
    BindEnv envEmpty
        (.ptrToStruct [(FieldMeta.mk "Items" "" true "ITEMS" "",
          Val.vIntSlice [5])]) =
      (.ptrToStruct [(FieldMeta.mk "Items" "" true "ITEMS" "",
        Val.vIntSlice [5])], none)
    ∧ Val.vIntSlice [5] ≠ Val.vIntSlice [] := by
  constructor
  · have pf : processField envEmpty
        (FieldMeta.mk "Items" "" true "ITEMS" "", Val.vIntSlice [5]) =
        ((FieldMeta.mk "Items" "" true "ITEMS" "", Val.vIntSlice [5]),
          none) :=
      processField_empty_resolved envEmpty _ _ rfl (by decide)
    exact BindEnv_ptrToStruct _ _ _ _
      (setFieldValues_cons_ok _ _ _ _ _ _ pf (setFieldValues_nil _))
  · simp

/-- C4 (amended): for a writable sequence-typed field with an `env`
annotation, an empty resolved text leaves the field unchanged with no
error (so a zero-initialized record keeps the zero-length nil sequence);
a nonempty resolved text is split on the literal comma and dispatched to
the slice conversion; sequence-of-text stores the split verbatim and a
trailing comma yields a trailing empty element; for int, bool and float64
elements, if every substring parses the results are stored in split
order, and if some substring fails to parse the field is left unchanged
and a conversion error reports the first offending element. -/
theorem c4_slice_conversion (env : Env) (meta : FieldMeta)
    (hset : meta.canSet = true) (htag : meta.envTag ≠ "") :
    (∀ v, isSliceVal v = true → getEnvValue env meta = "" →
        processField env (meta, v) = ((meta, v), none))
    ∧ (∀ v, isSliceVal v = true → getEnvValue env meta ≠ "" →
        processField env (meta, v) =
          ((meta, (setSliceField meta v (getEnvValue env meta)).1),
            (setSliceField meta v (getEnvValue env meta)).2))
    ∧ (∀ (l : List String) (s : String),
        setSliceField meta (.vStrSlice l) s = (.vStrSlice (split s), none))
    ∧ (∀ s : String, split (s ++ ",") = split s ++ [""])
    ∧ (∀ (l : List Int) (s : String) (parsed : List Int),
        (split s).map atoi? = parsed.map some →
        setSliceField meta (.vIntSlice l) s = (.vIntSlice parsed, none))
    ∧ (∀ (l : List Int) (s : String),
        (∃ x ∈ split s, atoi? x = none) →
        ∃ pre bad post, split s = pre ++ bad :: post
          ∧ (∀ x ∈ pre, (atoi? x).isSome) ∧ atoi? bad = none
          ∧ setSliceField meta (.vIntSlice l) s =
              (.vIntSlice l, some (.convErr meta.typeName bad "int")))
    ∧ (∀ (l : List Bool) (s : String) (parsed : List Bool),
        (split s).map parseBool? = parsed.map some →
        setSliceField meta (.vBoolSlice l) s = (.vBoolSlice parsed, none))
    ∧ (∀ (l : List Bool) (s : String),
        (∃ x ∈ split s, parseBool? x = none) →
        ∃ pre bad post, split s = pre ++ bad :: post
          ∧ (∀ x ∈ pre, (parseBool? x).isSome) ∧ parseBool? bad = none
          ∧ setSliceField meta (.vBoolSlice l) s =
              (.vBoolSlice l, some (.convErr meta.typeName bad "bool")))
    ∧ (∀ (l : List String) (s : String) (parsed : List String),
        (split s).map parseFloat? = parsed.map some →
        setSliceField meta (.vFloatSlice l) s = (.vFloatSlice parsed, none))
    ∧ (∀ (l : List String) (s : String),
        (∃ x ∈ split s, parseFloat? x = none) →
        ∃ pre bad post, split s = pre ++ bad :: post
          ∧ (∀ x ∈ pre, (parseFloat? x).isSome) ∧ parseFloat? bad = none
          ∧ setSliceField meta (.vFloatSlice l) s =
              (.vFloatSlice l,
                some (.convErr meta.typeName bad "float64"))) := by
  refine ⟨?_, ?_, ?_, split_append_comma, ?_, ?_, ?_, ?_, ?_, ?_⟩
  · intro v hv hres
    exact processField_empty_resolved env meta v
      (by cases v <;> simp_all [isSliceVal, isStructVal]) hres
  · intro v hv hres
    rw [processField_nonstruct env meta v
      (by cases v <;> simp_all [isSliceVal, isStructVal]) hset htag hres]
    cases v <;> simp_all [isSliceVal, setFieldValue]
  · intro l s
    simp [setSliceField]
  · intro l s parsed h
    have hc := (convertSlice_ok_iff atoi? (split s) parsed).mpr h
    simp [setSliceField, setIntSlice, hc]
  · intro l s hex
    obtain ⟨x, hx, hpx⟩ := hex
    obtain ⟨bad, hc⟩ := convertSlice_error_of_failure atoi? (split s) x hx hpx
    obtain ⟨pre, post, k1, k2, k3⟩ := convertSlice_error atoi? (split s) bad hc
    exact ⟨pre, bad, post, k1, k2, k3,
      by simp [setSliceField, setIntSlice, hc]⟩
  · intro l s parsed h
    have hc := (convertSlice_ok_iff parseBool? (split s) parsed).mpr h
    simp [setSliceField, setBoolSlice, hc]
  · intro l s hex
    obtain ⟨x, hx, hpx⟩ := hex
    obtain ⟨bad, hc⟩ :=
      convertSlice_error_of_failure parseBool? (split s) x hx hpx
    obtain ⟨pre, post, k1, k2, k3⟩ :=
      convertSlice_error parseBool? (split s) bad hc
    exact ⟨pre, bad, post, k1, k2, k3,
      by simp [setSliceField, setBoolSlice, hc]⟩
  · intro l s parsed h
    have hc := (convertSlice_ok_iff parseFloat? (split s) parsed).mpr h
    simp [setSliceField, setFloat64Slice, hc]
  · intro l s hex
    obtain ⟨x, hx, hpx⟩ := hex
    obtain ⟨bad, hc⟩ :=
      convertSlice_error_of_failure parseFloat? (split s) x hx hpx
    obtain ⟨pre, post, k1, k2, k3⟩ :=
      convertSlice_error parseFloat? (split s) bad hc
    exact ⟨pre, bad, post, k1, k2, k3,
      by simp [setSliceField, setFloat64Slice, hc]⟩

/-- Witness for C4: `Items []int env:"ITEMS"` with `ITEMS=1,2` is split
on the comma and stored in order. -/
theorem c4_slice_conversion_witness :
    (FieldMeta.mk "Items" "" true "ITEMS" "").canSet = true
    ∧ (FieldMeta.mk "Items" "" true "ITEMS" "").envTag ≠ ""
    ∧ processField (envOf "ITEMS" "1,2")
        (FieldMeta.mk "Items" "" true "ITEMS" "", Val.vIntSlice []) =
        ((FieldMeta.mk "Items" "" true "ITEMS" "", Val.vIntSlice [1, 2]),
          none) := by
  refine ⟨rfl, by decide, ?_⟩
  have hB := (c4_slice_conversion (envOf "ITEMS" "1,2")
    (FieldMeta.mk "Items" "" true "ITEMS" "") rfl (by decide)).2.1
    (Val.vIntSlice []) rfl (by decide)
  rw [hB]
  rfl

/-- C10: a declared default literal is converted by exactly the same
parsing rules as an environment value: with the environment variable
unset and a nonempty default, the field is processed exactly as if the
variable were set to the default text; in particular an unparsable
default produces a conversion error with the field left unchanged,
rather than the field being skipped or the literal stored verbatim. -/
theorem c10_default_parsed_like_env (env : Env) (meta : FieldMeta) (v : Val)
    (hset : meta.canSet = true) (hns : isStructVal v = false)
    (htag : meta.envTag ≠ "") (henv : env meta.envTag = "")
    (hdef : meta.defTag ≠ "") :
    processField env (meta, v) =
      processField (fun k => if k = meta.envTag then meta.defTag else env k)
        (meta, v)
    ∧ (convFails v meta.defTag = true →
        ∃ raw kind, processField env (meta, v) =
          ((meta, v), some (.convErr meta.typeName raw kind))) := by
  have hres : getEnvValue env meta = meta.defTag := by
    simp [getEnvValue, henv, hdef]
  have hres2 : getEnvValue
      (fun k => if k = meta.envTag then meta.defTag else env k) meta =
      meta.defTag := by
    simp [getEnvValue, hdef]
  constructor
  · rw [processField_nonstruct env meta v hns hset htag
      (by rw [hres]; exact hdef),
      processField_nonstruct _ meta v hns hset htag
      (by rw [hres2]; exact hdef), hres, hres2]
  · intro hcf
    rw [processField_nonstruct env meta v hns hset htag
      (by rw [hres]; exact hdef), hres]
    cases v with
    | vInt n =>
      have hp : atoi? meta.defTag = none := by
        simpa [convFails, Option.isNone_iff_eq_none] using hcf
      exact ⟨meta.defTag, "int", by simp [setFieldValue, setIntField, hp]⟩
    | vBool b =>
      have hp : parseBool? meta.defTag = none := by
        simpa [convFails, Option.isNone_iff_eq_none] using hcf
      exact ⟨meta.defTag, "bool", by simp [setFieldValue, setBoolField, hp]⟩
    | vFloat lit =>
      have hp : parseFloat? meta.defTag = none := by
        simpa [convFails, Option.isNone_iff_eq_none] using hcf
      exact ⟨meta.defTag, "float64",
        by simp [setFieldValue, setFloat64Field, hp]⟩
    | vIntSlice l =>
      rcases hc : convertSlice atoi? (split meta.defTag) with bad | l2
      · exact ⟨bad, "int",
          by simp [setFieldValue, setSliceField, setIntSlice, hc]⟩
      · rw [convFails, hc] at hcf
        simp at hcf
    | vBoolSlice l =>
      rcases hc : convertSlice parseBool? (split meta.defTag) with bad | l2
      · exact ⟨bad, "bool",
          by simp [setFieldValue, setSliceField, setBoolSlice, hc]⟩
      · rw [convFails, hc] at hcf
        simp at hcf
    | vFloatSlice l =>
      rcases hc : convertSlice parseFloat? (split meta.defTag) with bad | l2
      · exact ⟨bad, "float64",
          by simp [setFieldValue, setSliceField, setFloat64Slice, hc]⟩
      · rw [convFails, hc] at hcf
        simp at hcf
    | vStr s => simp [convFails] at hcf
    | vStrSlice l => simp [convFails] at hcf
    | vStructSlice l => simp [convFails] at hcf
    | vStruct gs => simp [isStructVal] at hns
    | vOther => simp [convFails] at hcf

/-- Witness for C10: `Port int env:"PORT" env-default:"oops"` with
`PORT` unset yields a conversion error on the default literal. -/
theorem c10_default_parsed_like_env_witness :
    (FieldMeta.mk "Port" "int" true "PORT" "oops").canSet = true
    ∧ isStructVal (Val.vInt 0) = false
    ∧ (FieldMeta.mk "Port" "int" true "PORT" "oops").envTag ≠ ""
    ∧ envEmpty (FieldMeta.mk "Port" "int" true "PORT" "oops").envTag = ""
    ∧ (FieldMeta.mk "Port" "int" true "PORT" "oops").defTag ≠ ""
    ∧ convFails (Val.vInt 0) "oops" = true
    ∧ ∃ raw kind, processField envEmpty
        (FieldMeta.mk "Port" "int" true "PORT" "oops", Val.vInt 0) =
        ((FieldMeta.mk "Port" "int" true "PORT" "oops", Val.vInt 0),
          some (.convErr "int" raw kind)) :=
  ⟨rfl, rfl, by decide, rfl, by decide, by decide,
    (c10_default_parsed_like_env envEmpty
      (FieldMeta.mk "Port" "int" true "PORT" "oops") (Val.vInt 0)
      rfl rfl (by decide) rfl (by decide)).2 (by decide)⟩

/-- C5: the loop recurses into a struct-kind field through BindEnv on its
address even when the field carries no `env` annotation, and a nested
failure is propagated wrapped; but the wrap interpolates
`field.Type().Name()` — the nested struct's type name, which is empty for
an anonymous struct type — not the outer field's name: here the outer
field is named "Sub", has an anonymous struct type, no `env` tag, and the
propagated error is wrapped with "", which does not identify the field. -/
theorem c5_nested_wrap_carries_type_name :
    BindEnv (envOf "X" "notanint")
        (.ptrToStruct [(FieldMeta.mk "Sub" "" true "" "",
          Val.vStruct [(FieldMeta.mk "X" "int" true "X" "", Val.vInt 0)])]) =
      (.ptrToStruct [(FieldMeta.mk "Sub" "" true "" "",
        Val.vStruct [(FieldMeta.mk "X" "int" true "X" "", Val.vInt 0)])],
        some (.nestedErr "" (.convErr "int" "notanint" "int")))
    ∧ ("" : String) ≠ "Sub" := by
  constructor
  · have pX : processField (envOf "X" "notanint")
        (FieldMeta.mk "X" "int" true "X" "", Val.vInt 0) =
        ((FieldMeta.mk "X" "int" true "X" "", Val.vInt 0),
          some (.convErr "int" "notanint" "int")) := by
      rw [processField_nonstruct (envOf "X" "notanint")
        (FieldMeta.mk "X" "int" true "X" "") (Val.vInt 0) rfl rfl
        (by decide) (by decide)]
      rfl
    have pSub := processField_struct_err (envOf "X" "notanint")
      (FieldMeta.mk "Sub" "" true "" "") _ _ _ rfl
      (setFieldValues_cons_err _ _ _ [] _ pX)
    exact BindEnv_ptrToStruct _ _ _ _
      (setFieldValues_cons_err _ _ _ [] _ pSub)
  · decide

/-- C6: a failed int conversion returns an error carrying the raw text
and the target kind, but the "field" it names is `field.Type().Name()` —
the type name "int" — not the field's name "Count": the error cannot
identify which field failed. -/
theorem c6_conversion_error_names_type :
    BindEnv (envOf "COUNT" "notanint")
        (.ptrToStruct [(FieldMeta.mk "Count" "int" true "COUNT" "",
          Val.vInt 0)]) =
      (.ptrToStruct [(FieldMeta.mk "Count" "int" true "COUNT" "",
        Val.vInt 0)],
        some (.convErr "int" "notanint" "int"))
    ∧ ("int" : String) ≠ "Count" := by
  constructor
  · have pC : processField (envOf "COUNT" "notanint")
        (FieldMeta.mk "Count" "int" true "COUNT" "", Val.vInt 0) =
        ((FieldMeta.mk "Count" "int" true "COUNT" "", Val.vInt 0),
          some (.convErr "int" "notanint" "int")) := by
      rw [processField_nonstruct (envOf "COUNT" "notanint")
        (FieldMeta.mk "Count" "int" true "COUNT" "") (Val.vInt 0) rfl rfl
        (by decide) (by decide)]
      rfl
    exact BindEnv_ptrToStruct _ _ _ _
      (setFieldValues_cons_err _ _ _ [] _ pC)
  · decide

end Ectoenv
